import Mathlib

/-!
# Verification of the ansel publish core

A shallow embedding, in Lean 4, of the deployment-orchestration core of the
`ansel` repository: the CloudFormation stack lifecycle manager
(`internal/publish/cloudformation.go`), and the S3 content synchronizer
(the unnamed `publish` source file holding `SyncDirectory`, `listObjects`,
`uploadFile` and `fileMD5`).

Go strings are modelled as `List Char` (the functions under study never
exploit multi-byte encodings), file contents as `List Nat` of byte values,
and the remote AWS APIs as explicit inputs: each embedded operation takes
the sequence of responses the remote side would produce and computes the
same result the Go code would.
-/

set_option autoImplicit false

namespace Ansel

/-- Go strings, modelled as lists of characters. -/
abbrev GoStr := List Char

/-! ## MD5 (`crypto/md5` + `encoding/hex`, as used by `fileMD5`)

`fileMD5` in the source reads a file's bytes, feeds them through
`crypto/md5` and hex-encodes the 16-byte digest with
`hex.EncodeToString` (lowercase).  We implement MD5 (RFC 1321) over
`List Nat` byte values, with all 32-bit words as `Nat` reduced `% 2 ^ 32`.
-/

/-- 32-bit left rotation on a `Nat` word already reduced `% 2 ^ 32`. -/
def rotl32 (x n : Nat) : Nat :=
  (Nat.lor (Nat.shiftLeft x n) (Nat.shiftRight x (32 - n))) % 2 ^ 32

/-- 32-bit bitwise complement. -/
def not32 (x : Nat) : Nat := Nat.xor x 0xffffffff

/-- The 64 MD5 sine-derived constants `K[i]` (RFC 1321). -/
def md5K : List Nat :=
  [0xd76aa478, 0xe8c7b756, 0x242070db, 0xc1bdceee,
   0xf57c0faf, 0x4787c62a, 0xa8304613, 0xfd469501,
   0x698098d8, 0x8b44f7af, 0xffff5bb1, 0x895cd7be,
   0x6b901122, 0xfd987193, 0xa679438e, 0x49b40821,
   0xf61e2562, 0xc040b340, 0x265e5a51, 0xe9b6c7aa,
   0xd62f105d, 0x02441453, 0xd8a1e681, 0xe7d3fbc8,
   0x21e1cde6, 0xc33707d6, 0xf4d50d87, 0x455a14ed,
   0xa9e3e905, 0xfcefa3f8, 0x676f02d9, 0x8d2a4c8a,
   0xfffa3942, 0x8771f681, 0x6d9d6122, 0xfde5380c,
   0xa4beea44, 0x4bdecfa9, 0xf6bb4b60, 0xbebfbc70,
   0x289b7ec6, 0xeaa127fa, 0xd4ef3085, 0x04881d05,
   0xd9d4d039, 0xe6db99e5, 0x1fa27cf8, 0xc4ac5665,
   0xf4292244, 0x432aff97, 0xab9423a7, 0xfc93a039,
   0x655b59c3, 0x8f0ccc92, 0xffeff47d, 0x85845dd1,
   0x6fa87e4f, 0xfe2ce6e0, 0xa3014314, 0x4e0811a1,
   0xf7537e82, 0xbd3af235, 0x2ad7d2bb, 0xeb86d391]

/-- The 64 per-round left-rotation amounts `s[i]` (RFC 1321). -/
def md5S : List Nat :=
  [7, 12, 17, 22, 7, 12, 17, 22, 7, 12, 17, 22, 7, 12, 17, 22,
   5,  9, 14, 20, 5,  9, 14, 20, 5,  9, 14, 20, 5,  9, 14, 20,
   4, 11, 16, 23, 4, 11, 16, 23, 4, 11, 16, 23, 4, 11, 16, 23,
   6, 10, 15, 21, 6, 10, 15, 21, 6, 10, 15, 21, 6, 10, 15, 21]

/-- One MD5 round: given round index `i`, the 16 message words `m`, and the
state `(a, b, c, d)`, produce the next state. -/
def md5Round (m : List Nat) (i : Nat) :
    Nat × Nat × Nat × Nat → Nat × Nat × Nat × Nat :=
  fun (a, b, c, d) =>
    let fg : Nat × Nat :=
      if i < 16 then
        (Nat.lor (Nat.land b c) (Nat.land (not32 b) d), i)
      else if i < 32 then
        (Nat.lor (Nat.land d b) (Nat.land (not32 d) c), (5 * i + 1) % 16)
      else if i < 48 then
        (Nat.xor b (Nat.xor c d), (3 * i + 5) % 16)
      else
        (Nat.xor c (Nat.lor b (not32 d)), (7 * i) % 16)
    let f := (fg.1 + a + md5K.getD i 0 + m.getD fg.2 0) % 2 ^ 32
    (d, (b + rotl32 f (md5S.getD i 0)) % 2 ^ 32, b, c)

/-- Decode a 64-byte chunk into 16 little-endian 32-bit words. -/
def md5Words (chunk : List Nat) : List Nat :=
  (List.range 16).map fun j =>
    chunk.getD (4 * j) 0 + chunk.getD (4 * j + 1) 0 * 2 ^ 8 +
      chunk.getD (4 * j + 2) 0 * 2 ^ 16 + chunk.getD (4 * j + 3) 0 * 2 ^ 24

/-- Process one 64-byte chunk, updating the running digest state. -/
def md5Chunk (state : Nat × Nat × Nat × Nat) (chunk : List Nat) :
    Nat × Nat × Nat × Nat :=
  let m := md5Words chunk
  let r := (List.range 64).foldl (fun st i => md5Round m i st) state
  ((state.1 + r.1) % 2 ^ 32, (state.2.1 + r.2.1) % 2 ^ 32,
   (state.2.2.1 + r.2.2.1) % 2 ^ 32, (state.2.2.2 + r.2.2.2) % 2 ^ 32)

/-- Split a byte list into 64-byte chunks (length must divide into 64s). -/
def md5Chunks (bs : List Nat) : List (List Nat) :=
  (List.range ((bs.length + 63) / 64)).map fun i => (bs.drop (64 * i)).take 64

/-- MD5 padding: append `0x80`, zero bytes to 56 mod 64, then the original
bit length as a little-endian 64-bit quantity. -/
def md5Pad (msg : List Nat) : List Nat :=
  let bitLen := (8 * msg.length) % 2 ^ 64
  let padLen := (55 + 64 - msg.length % 64) % 64 + 1
  msg ++ [0x80] ++ List.replicate (padLen - 1) 0 ++
    (List.range 8).map fun j => bitLen / 2 ^ (8 * j) % 2 ^ 8

/-- The 16-byte MD5 digest of a byte sequence. -/
def md5Digest (msg : List Nat) : List Nat :=
  let st := (md5Chunks (md5Pad msg)).foldl md5Chunk
    (0x67452301, 0xefcdab89, 0x98badcfe, 0x10325476)
  [st.1, st.2.1, st.2.2.1, st.2.2.2].flatMap fun w =>
    (List.range 4).map fun j => w / 2 ^ (8 * j) % 2 ^ 8

/-- Lowercase hex digits, as used by `hex.EncodeToString`. -/
def hexDigit (n : Nat) : Char := "0123456789abcdef".toList.getD n '0'

/-- Hex-encode one byte as two lowercase hex characters. -/
def byteHex (b : Nat) : GoStr := [hexDigit (b / 16), hexDigit (b % 16)]

/-- `fileMD5` from the sync source: read a file's bytes, MD5 them, and
return `hex.EncodeToString(hash.Sum(nil))`.  The embedding takes the
file's bytes directly (the `os.Open`/`io.Copy` plumbing reads the bytes
and is modelled by the separate `readOk` flag on `LocalFile`). -/
def fileMD5 (content : List Nat) : GoStr :=
  (md5Digest content).flatMap byteHex

/-! ## Go string helpers

`strings.Trim(etag, "\"")` with the one-character cutset `"` removes all
leading and all trailing quote characters.  `contains`/`containsImpl` are
the hand-rolled substring helpers of `cloudformation.go`. -/

/-- `strings.TrimLeft(s, "\"")`: drop leading `"` characters. -/
def trimLeftQuotes : GoStr → GoStr
  | [] => []
  | c :: rest => if c = '"' then trimLeftQuotes rest else c :: rest

/-- `strings.Trim(s, "\"")`: drop leading and trailing `"` characters. -/
def trimQuotes (s : GoStr) : GoStr :=
  (trimLeftQuotes (trimLeftQuotes s).reverse).reverse

/-- `containsImpl` from `cloudformation.go`: scan every start index `i`
with `0 ≤ i ≤ len(s) - len(substr)` and test `s[i:i+len(substr)] == substr`.
(The Go loop bound is an `int`; when `len(substr) > len(s)` it is negative
and the loop body never runs, hence the guard.) -/
def containsImpl (s substr : GoStr) : Bool :=
  if s.length < substr.length then false
  else (List.range (s.length - substr.length + 1)).any fun i =>
    (s.drop i).take substr.length == substr

/-- `contains` from `cloudformation.go`:
`len(s) >= len(substr) && (s == substr || len(s) > 0 && containsImpl(s, substr))`. -/
def contains (s substr : GoStr) : Bool :=
  decide (s.length ≥ substr.length) &&
    (s == substr || (decide (s.length > 0) && containsImpl s substr))

/-- The standard substring predicate, as the claim states it: `substr`
occurs as a contiguous substring of `s`. -/
def OccursIn (substr s : GoStr) : Prop :=
  ∃ pre post, s = pre ++ substr ++ post

/-! ## The content synchronizer (`SyncDirectory` and friends)

The remote S3 listing API is modelled as the list of page responses the
paginator would deliver: each page either succeeds with key/ETag pairs or
fails.  The object map built by `listObjects` is an association list with
Go-map insert-overwrite semantics.  A local file carries the data the Go
code reads from disk: its path, its S3 key (`filepath.ToSlash` of the
path relative to the build dir), its bytes, its modification time (never
consulted by the code, carried to state that fact), and whether reading
it succeeds.  `PutObject` outcomes are supplied as a predicate on keys. -/

/-- Insert with overwrite, the behaviour of a Go map assignment. -/
def mapInsert (m : List (GoStr × GoStr)) (k v : GoStr) : List (GoStr × GoStr) :=
  match m with
  | [] => [(k, v)]
  | (k', v') :: rest =>
    if k' = k then (k, v) :: rest else (k', v') :: mapInsert rest k v

/-- Go map lookup on the association list. -/
def mapLookup (m : List (GoStr × GoStr)) (k : GoStr) : Option GoStr :=
  match m with
  | [] => none
  | (k', v') :: rest => if k' = k then some v' else mapLookup rest k

/-- One S3 `ListObjectsV2` page: either the key/ETag pairs of the page, or
a failed request (e.g., the bucket does not exist). -/
abbrev ListPage := Except GoStr (List (GoStr × GoStr))

/-- `listObjects` from the sync source: fold the paginator's pages into a
map; when a page request fails, return the objects accumulated so far
with a nil error ("bucket might not exist yet or be empty"). -/
def listObjects (acc : List (GoStr × GoStr)) : List ListPage → List (GoStr × GoStr)
  | [] => acc
  | .error _ :: _ => acc
  | .ok page :: rest =>
    listObjects (page.foldl (fun m kv => mapInsert m kv.1 kv.2) acc) rest

/-- A local file as discovered by `filepath.WalkDir` over the build
directory. -/
structure LocalFile where
  path : GoStr
  relKey : GoStr
  content : List Nat
  mtime : Nat
  readOk : Bool
deriving DecidableEq, Repr

/-- The per-file decision of the `SyncDirectory` loop body: skip when the
key is present remotely and the quote-trimmed ETag equals the local MD5,
upload otherwise. -/
inductive FileAction where
  | skip
  | upload
deriving DecidableEq, Repr

/-- The loop body's comparison: `if etag, ok := existing[key]; ok` then
compare `strings.Trim(etag, "\"")` with the local MD5 hex string. -/
def fileAction (existing : List (GoStr × GoStr)) (key localMD5 : GoStr) :
    FileAction :=
  match mapLookup existing key with
  | some etag => if trimQuotes etag = localMD5 then .skip else .upload
  | none => .upload

/-- The observable outcome of a sync run: the keys uploaded (in order of
the `PutObject` calls actually issued) and either an error or the final
`(uploaded, skipped)` counters. -/
structure SyncRun where
  uploads : List GoStr
  result : Except GoStr (Nat × Nat)
deriving Repr

/-- The `SyncDirectory` file loop, with the running `uploaded`/`skipped`
counters: for each file compute its MD5 (failing fatally when the read
fails), skip on an ETag match, otherwise `PutObject` (failing fatally
when the put fails). -/
def syncFiles (existing : List (GoStr × GoStr)) (putOk : GoStr → Bool) :
    List LocalFile → Nat → Nat → SyncRun
  | [], up, sk => ⟨[], .ok (up, sk)⟩
  | f :: rest, up, sk =>
    if f.readOk then
      match fileAction existing f.relKey (fileMD5 f.content) with
      | .skip => syncFiles existing putOk rest up (sk + 1)
      | .upload =>
        if putOk f.relKey then
          let r := syncFiles existing putOk rest (up + 1) sk
          ⟨f.relKey :: r.uploads, r.result⟩
        else ⟨[], .error ("failed to upload ".toList ++ f.path)⟩
    else ⟨[], .error ("failed to compute MD5 for ".toList ++ f.path)⟩

/-- `SyncDirectory` from the sync source: build the remote index from the
listing pages, fail with "no files found" when the walk discovered no
regular files, and otherwise run the upload-or-skip loop over every
file. -/
def SyncDirectory (pages : List ListPage) (putOk : GoStr → Bool)
    (buildDir : GoStr) (files : List LocalFile) : SyncRun :=
  let existing := listObjects [] pages
  if files.length = 0 then ⟨[], .error ("no files found in ".toList ++ buildDir)⟩
  else syncFiles existing putOk files 0 0

/-! ## The stack lifecycle manager (`cloudformation.go`)

Each operation is embedded as a function of the responses the AWS APIs
would return.  Errors are carried as their message strings. -/

/-- A `DescribeStacks` failure: either the typed
`types.StackNotFoundException`, or a generic error with a message. -/
inductive DescribeErr where
  | stackNotFound
  | other (msg : GoStr)
deriving DecidableEq, Repr

/-- `isNoUpdateError` from `cloudformation.go` (for a non-nil error with
message `msg`): `contains(err.Error(), "No updates are to be performed")`. -/
def isNoUpdateError (msg : GoStr) : Bool :=
  contains msg "No updates are to be performed".toList

/-- `StackExists`, as Go's `(bool, error)` pair (`none` is a nil error):
a typed not-found error or a message containing "does not exist" maps to
`(false, nil)`; any other describe failure is reported; a successful
describe maps to `(true, nil)`. -/
def StackExists (describeRes : Except DescribeErr Unit) : Bool × Option GoStr :=
  match describeRes with
  | .ok _ => (true, none)
  | .error .stackNotFound => (false, none)
  | .error (.other msg) =>
    if contains msg "does not exist".toList then (false, none)
    else (false, some ("failed to describe stack: ".toList ++ msg))

/-- `CreateOrUpdateStack`, as Go's `(bool, error)` pair: check existence
(propagating its error); if the stack exists submit the update (treating
a "No updates are to be performed" rejection as success with no
operation started), otherwise submit the create.  The boolean reports
whether an operation was started. -/
def CreateOrUpdateStack (describeRes : Except DescribeErr Unit)
    (updateRes createRes : Except GoStr Unit) : Bool × Option GoStr :=
  match StackExists describeRes with
  | (_, some e) => (false, some e)
  | (exists_, none) =>
    if exists_ then
      match updateRes with
      | .ok _ => (true, none)
      | .error e =>
        if isNoUpdateError e then (false, none)
        else (false, some ("failed to update stack: ".toList ++ e))
    else
      match createRes with
      | .ok _ => (true, none)
      | .error e => (false, some ("failed to create stack: ".toList ++ e))

/-- One record of `DescribeStackEvents`: the resource status and the
optional (may be nil) status reason. -/
structure StackEvent where
  resourceStatus : GoStr
  resourceStatusReason : Option GoStr
deriving DecidableEq, Repr

/-- The scan inside `getStackFailureReason`: return the reason of the
first event (the listing is most-recent-first) whose resource status is
`CREATE_FAILED` or `UPDATE_FAILED` and whose reason is non-nil;
"unknown reason" when no such event exists. -/
def findFailureReason : List StackEvent → GoStr
  | [] => "unknown reason".toList
  | e :: rest =>
    if e.resourceStatus = "CREATE_FAILED".toList ∨
        e.resourceStatus = "UPDATE_FAILED".toList then
      match e.resourceStatusReason with
      | some r => r
      | none => findFailureReason rest
    else findFailureReason rest

/-- `getStackFailureReason`: when `DescribeStackEvents` itself fails,
"unable to get failure reason"; otherwise scan the events. -/
def getStackFailureReason (eventsRes : Except GoStr (List StackEvent)) : GoStr :=
  match eventsRes with
  | .error _ => "unable to get failure reason".toList
  | .ok evs => findFailureReason evs

/-- The two success terminal stack statuses of `WaitForStack`. -/
def successStatuses : List GoStr :=
  ["CREATE_COMPLETE".toList, "UPDATE_COMPLETE".toList]

/-- The seven failure terminal stack statuses of `WaitForStack`. -/
def failureStatuses : List GoStr :=
  ["CREATE_FAILED".toList, "ROLLBACK_COMPLETE".toList,
   "ROLLBACK_FAILED".toList, "UPDATE_ROLLBACK_COMPLETE".toList,
   "UPDATE_ROLLBACK_FAILED".toList, "DELETE_COMPLETE".toList,
   "DELETE_FAILED".toList]

/-- What one tick of the `WaitForStack` select/poll loop observes:
context cancellation, a failed describe, an empty stack list, or the
current stack status. -/
inductive WaitObservation where
  | ctxDone (e : GoStr)
  | describeFailed (e : GoStr)
  | noStacks
  | stackStatus (s : GoStr)
deriving DecidableEq, Repr

/-- Outcome of one loop iteration: either the function returns with a
result, or the loop keeps waiting. -/
inductive StepOutcome where
  | finished (r : Except GoStr Unit)
  | continueLoop
deriving Repr

/-- One iteration of the `WaitForStack` loop: success statuses return
nil, the seven failure statuses return an error built from the resolved
failure reason, every other status falls through the switch and the loop
continues. -/
def waitForStackStep (obs : WaitObservation)
    (eventsRes : Except GoStr (List StackEvent)) : StepOutcome :=
  match obs with
  | .ctxDone e => .finished (.error e)
  | .describeFailed e =>
    .finished (.error ("failed to describe stack: ".toList ++ e))
  | .noStacks => .finished (.error "stack not found".toList)
  | .stackStatus s =>
    if s ∈ successStatuses then .finished (.ok ())
    else if s ∈ failureStatuses then
      .finished (.error ("stack failed with status ".toList ++ s ++
        ": ".toList ++ getStackFailureReason eventsRes))
    else .continueLoop

/-- `WaitForStack` over a finite trace of observations (each paired with
the event-history response that tick would see): the first terminal
iteration's result, or `none` when the trace is exhausted with the loop
still polling. -/
def WaitForStack :
    List (WaitObservation × Except GoStr (List StackEvent)) →
      Option (Except GoStr Unit)
  | [] => none
  | (obs, evs) :: rest =>
    match waitForStackStep obs evs with
    | .finished r => some r
    | .continueLoop => WaitForStack rest

/-- `StackOutputs` from `cloudformation.go`; the Go zero value has all
fields as empty strings. -/
structure StackOutputs where
  bucketName : GoStr
  distributionID : GoStr
  distributionDomain : GoStr
  siteURL : GoStr
deriving DecidableEq, Repr

/-- The zero-valued `StackOutputs` struct. -/
def emptyOutputs : StackOutputs := ⟨[], [], [], []⟩

/-- One entry of a stack's `Outputs` list; key and value are nilable. -/
structure OutputPair where
  key : Option GoStr
  value : Option GoStr
deriving DecidableEq, Repr

/-- The body of the `GetStackOutputs` loop: skip entries with a nil key
or value, assign the four recognized keys to their fields, ignore every
other key. -/
def applyOutput (o : StackOutputs) (p : OutputPair) : StackOutputs :=
  match p.key, p.value with
  | some k, some v =>
    if k = "BucketName".toList then { o with bucketName := v }
    else if k = "DistributionId".toList then { o with distributionID := v }
    else if k = "DistributionDomain".toList then { o with distributionDomain := v }
    else if k = "SiteURL".toList then { o with siteURL := v }
    else o
  | _, _ => o

/-- `GetStackOutputs`: propagate a describe failure, report "stack not
found" on an empty stack list, otherwise fold the first stack's outputs
into a fresh `StackOutputs`.  Each stack is represented by its outputs
list, the only part the function reads. -/
def GetStackOutputs (describeRes : Except GoStr (List (List OutputPair))) :
    Except GoStr StackOutputs :=
  match describeRes with
  | .error e => .error ("failed to describe stack: ".toList ++ e)
  | .ok [] => .error "stack not found".toList
  | .ok (st :: _) => .ok (st.foldl applyOutput emptyOutputs)

/-! ## The invalidation coordinator (`InvalidateDistribution`) -/

/-- What one tick of the invalidation poll loop observes: context
cancellation, a failed `GetInvalidation`, or the purge's status string. -/
inductive InvObservation where
  | ctxDone (e : GoStr)
  | getFailed (e : GoStr)
  | invStatus (s : GoStr)
deriving DecidableEq, Repr

/-- One iteration of the `InvalidateDistribution` wait loop: return nil
exactly when the status string equals "Completed"; every other status
only logs and keeps polling. -/
def invalidationStep (obs : InvObservation) : StepOutcome :=
  match obs with
  | .ctxDone e => .finished (.error e)
  | .getFailed e =>
    .finished (.error ("failed to get invalidation status: ".toList ++ e))
  | .invStatus s =>
    if s = "Completed".toList then .finished (.ok ()) else .continueLoop

/-- The `InvalidateDistribution` wait loop over a finite observation
trace: the first terminal iteration's result, or `none` when the trace is
exhausted with the loop still polling. -/
def invalidationWait : List InvObservation → Option (Except GoStr Unit)
  | [] => none
  | obs :: rest =>
    match invalidationStep obs with
    | .finished r => some r
    | .continueLoop => invalidationWait rest

/-! ## Spec-side predicates and concrete sample inputs -/

/-- Two walked files that agree on everything the sync code reads (path,
key, bytes, readability) but may differ in modification time. -/
def sameContent (f g : LocalFile) : Prop :=
  f.path = g.path ∧ f.relKey = g.relKey ∧ f.content = g.content ∧ f.readOk = g.readOk

/-- Sample listing: one page holding `a.txt` with the (quoted) ETag of the
empty file. -/
def w1Pages : List ListPage :=
  [Except.ok [("a.txt".toList, "\"d41d8cd98f00b204e9800998ecf8427e\"".toList)]]

/-- Sample walk: `a.txt` (empty, matching the remote ETag) and `b.txt`
(content `"a"`, not present remotely). -/
def w1Files : List LocalFile :=
  [⟨"build/a.txt".toList, "a.txt".toList, [], 0, true⟩,
   ⟨"build/b.txt".toList, "b.txt".toList, [97], 1, true⟩]

/-- Sample remote index: `a.txt` with the quoted ETag of the empty file. -/
def w4Existing : List (GoStr × GoStr) :=
  [("a.txt".toList, "\"d41d8cd98f00b204e9800998ecf8427e\"".toList)]

/-- Sample listing whose second page request fails: the first page already
delivered `a.txt`. -/
def c2Pages : List ListPage :=
  [Except.ok [("a.txt".toList, "\"d41d8cd98f00b204e9800998ecf8427e\"".toList)],
   Except.error "RequestTimeout".toList]

/-- The four output keys recognized by `GetStackOutputs`. -/
def recognizedOutputKeys : List GoStr :=
  ["BucketName".toList, "DistributionId".toList,
   "DistributionDomain".toList, "SiteURL".toList]

/-! ## Theorems -/

/-- The count invariant of the sync loop, generalized over the running
counters. -/
theorem syncFiles_counts (existing : List (GoStr × GoStr)) (putOk : GoStr → Bool) :
    ∀ (fs : List LocalFile) (up sk u s : Nat),
      (syncFiles existing putOk fs up sk).result = Except.ok (u, s) →
      u + s = up + sk + fs.length := by
  intro fs
  induction fs with
  | nil =>
    intro up sk u s h
    simp only [syncFiles, Except.ok.injEq, Prod.mk.injEq] at h
    simp only [List.length_nil]
    omega
  | cons f rest ih =>
    intro up sk u s h
    simp only [syncFiles] at h
    split at h
    · split at h
      · have := ih up (sk + 1) u s h
        simp only [List.length_cons]
        omega
      · split at h
        · have := ih (up + 1) sk u s h
          simp only [List.length_cons]
          omega
        · simp at h
    · simp at h

/-- C1: for every `SyncDirectory` run that returns without error, the
`uploaded` counter plus the `skipped` counter equals the number of local
files discovered by the directory walk. -/
theorem sync_uploaded_plus_skipped_eq_total
    (pages : List ListPage) (putOk : GoStr → Bool) (buildDir : GoStr)
    (files : List LocalFile) (u s : Nat)
    (h : (SyncDirectory pages putOk buildDir files).result = Except.ok (u, s)) :
    u + s = files.length := by
  unfold SyncDirectory at h
  split at h
  · simp at h
  · have := syncFiles_counts _ putOk files 0 0 u s h
    omega

/-- Witness for C1: a two-file run (one file skipped by ETag match, one
uploaded) returns without error and `1 + 1` equals the file count. -/
theorem sync_uploaded_plus_skipped_eq_total_witness :
    (SyncDirectory w1Pages (fun _ => true) "build".toList w1Files).result
      = Except.ok (1, 1)
    ∧ 1 + 1 = w1Files.length :=
  ⟨by rfl,
   sync_uploaded_plus_skipped_eq_total w1Pages (fun _ => true) "build".toList
     w1Files 1 1 (by rfl)⟩

/-- C8: syncing a build directory whose recursive walk found zero regular
files returns the "no files found" fatal error, and no `PutObject` call
is issued. -/
theorem sync_empty_dir_error (pages : List ListPage) (putOk : GoStr → Bool)
    (buildDir : GoStr) :
    SyncDirectory pages putOk buildDir [] =
      ⟨[], Except.error ("no files found in ".toList ++ buildDir)⟩ := by
  rfl

/-- The sync loop never reads a file's modification time. -/
theorem syncFiles_mtime_irrelevant (existing : List (GoStr × GoStr))
    (putOk : GoStr → Bool) (fs gs : List LocalFile)
    (h : List.Forall₂ sameContent fs gs) :
    ∀ up sk, syncFiles existing putOk fs up sk = syncFiles existing putOk gs up sk := by
  induction h with
  | nil => intro up sk; rfl
  | cons hfg hrest ih =>
    intro up sk
    obtain ⟨hp, hk, hc, hr⟩ := hfg
    simp only [syncFiles, hp, hk, hc, hr, ih]

/-- C5: the upload-or-skip decision depends only on file bytes and the
remote index, never on modification times: two walks identical except
for the files' mtimes produce identical sync runs (same uploads, same
counts), so a byte-identical file is never re-uploaded because its mtime
changed. -/
theorem sync_decisions_ignore_mtime
    (pages : List ListPage) (putOk : GoStr → Bool) (buildDir : GoStr)
    (files files' : List LocalFile)
    (h : List.Forall₂ sameContent files files') :
    SyncDirectory pages putOk buildDir files =
      SyncDirectory pages putOk buildDir files' := by
  unfold SyncDirectory
  rw [h.length_eq]
  split
  · rfl
  · exact syncFiles_mtime_irrelevant _ _ _ _ h 0 0

/-- A hex digit character is never a quote. -/
theorem hexDigit_ne_quote (n : Nat) : hexDigit n ≠ '"' := by
  rcases lt_or_ge n 16 with h | h
  · interval_cases n <;> decide
  · unfold hexDigit
    rw [List.getD_eq_default]
    · decide
    · simpa using h

/-- No quote character ever appears in a computed MD5 hex string. -/
theorem quote_not_mem_fileMD5 (c : List Nat) : '"' ∉ fileMD5 c := by
  intro hmem
  unfold fileMD5 at hmem
  rw [List.mem_flatMap] at hmem
  obtain ⟨b, _, hb⟩ := hmem
  unfold byteHex at hb
  simp only [List.mem_cons, List.not_mem_nil, or_false] at hb
  rcases hb with hb | hb
  · exact hexDigit_ne_quote _ hb.symm
  · exact hexDigit_ne_quote _ hb.symm

/-- Hex encoding doubles the length. -/
theorem length_flatMap_byteHex (l : List Nat) :
    (l.flatMap byteHex).length = 2 * l.length := by
  induction l with
  | nil => rfl
  | cons b rest ih =>
    simp only [List.flatMap_cons, List.length_append, List.length_cons, ih, byteHex]
    simp
    omega

/-- An MD5 digest always has 16 bytes. -/
theorem md5Digest_length (c : List Nat) : (md5Digest c).length = 16 := by
  unfold md5Digest
  simp [List.flatMap_cons, List.flatMap_nil]

/-- A computed MD5 hex string is never empty. -/
theorem fileMD5_ne_nil (c : List Nat) : fileMD5 c ≠ [] := by
  intro h
  have : (fileMD5 c).length = 32 := by
    unfold fileMD5
    rw [length_flatMap_byteHex, md5Digest_length]
  rw [h] at this
  simp at this

/-- `trimLeftQuotes` is the identity when the first character is not a
quote. -/
theorem trimLeftQuotes_cons_ne (c : Char) (hc : c ≠ '"') (rest : GoStr) :
    trimLeftQuotes (c :: rest) = c :: rest := by
  simp [trimLeftQuotes, hc]

/-- `strings.Trim(_, "\"")` on a quote-wrapped quote-free string returns
the string itself. -/
theorem trimQuotes_quoted (h : GoStr) (hne : h ≠ []) (hq : '"' ∉ h) :
    trimQuotes ('"' :: (h ++ ['"'])) = h := by
  obtain ⟨c, t, rfl⟩ := List.exists_cons_of_ne_nil hne
  have hc : c ≠ '"' := fun e => hq (e ▸ List.mem_cons_self c t)
  unfold trimQuotes
  rw [show trimLeftQuotes ('"' :: (c :: t ++ ['"'])) =
      trimLeftQuotes (c :: (t ++ ['"'])) from by simp [trimLeftQuotes]]
  rw [trimLeftQuotes_cons_ne c hc]
  rw [show (c :: (t ++ ['"'])).reverse = '"' :: (t.reverse ++ [c]) from by simp]
  rw [show trimLeftQuotes ('"' :: (t.reverse ++ [c])) =
      trimLeftQuotes (t.reverse ++ [c]) from by simp [trimLeftQuotes]]
  have : trimLeftQuotes (t.reverse ++ [c]) = t.reverse ++ [c] := by
    cases ht : t.reverse with
    | nil => simpa [ht] using trimLeftQuotes_cons_ne c hc []
    | cons d t' =>
      have hd : d ≠ '"' := by
        intro e
        apply hq
        have : d ∈ t.reverse := by rw [ht]; exact List.mem_cons_self d t'
        exact List.mem_cons_of_mem c (e ▸ List.mem_reverse.mp this)
      simpa using trimLeftQuotes_cons_ne d hd (t' ++ [c])
  rw [this]
  simp

/-- C4: the ETag comparison strips surrounding quote characters before
comparing: a remote fingerprint that is the locally computed fingerprint
wrapped in quotes compares equal, and a file with such a matching
fingerprint is counted skipped and not uploaded. -/
theorem sync_etag_quote_normalization (content : List Nat) (key path : GoStr)
    (mt : Nat) (putOk : GoStr → Bool) (existing : List (GoStr × GoStr))
    (hlook : mapLookup existing key = some ('"' :: (fileMD5 content ++ ['"']))) :
    trimQuotes ('"' :: (fileMD5 content ++ ['"'])) = fileMD5 content
    ∧ fileAction existing key (fileMD5 content) = .skip
    ∧ syncFiles existing putOk [⟨path, key, content, mt, true⟩] 0 0 =
        ⟨[], Except.ok (0, 1)⟩ := by
  have htr : trimQuotes ('"' :: (fileMD5 content ++ ['"'])) = fileMD5 content :=
    trimQuotes_quoted _ (fileMD5_ne_nil content) (quote_not_mem_fileMD5 content)
  have hact : fileAction existing key (fileMD5 content) = .skip := by
    unfold fileAction
    rw [hlook]
    simp [htr]
  refine ⟨htr, hact, ?_⟩
  simp [syncFiles, hact]

/-- Witness for C4: the empty file against the quoted remote ETag
`"d41d8cd98f00b204e9800998ecf8427e"` is classified as a skip. -/
theorem sync_etag_quote_normalization_witness :
    mapLookup w4Existing "a.txt".toList = some ('"' :: (fileMD5 [] ++ ['"']))
    ∧ fileAction w4Existing "a.txt".toList (fileMD5 []) = .skip :=
  ⟨by rfl,
   (sync_etag_quote_normalization [] "a.txt".toList "build/a.txt".toList 0
     (fun _ => true) w4Existing (by rfl)).2.1⟩

/-- Witness for C5: the same file observed with mtime 0 and mtime 999
yields identical sync runs. -/
theorem sync_decisions_ignore_mtime_witness :
    List.Forall₂ sameContent
      [⟨"build/a.txt".toList, "a.txt".toList, [104, 105], 0, true⟩]
      [⟨"build/a.txt".toList, "a.txt".toList, [104, 105], 999, true⟩]
    ∧ SyncDirectory [] (fun _ => true) "build".toList
        [⟨"build/a.txt".toList, "a.txt".toList, [104, 105], 0, true⟩] =
      SyncDirectory [] (fun _ => true) "build".toList
        [⟨"build/a.txt".toList, "a.txt".toList, [104, 105], 999, true⟩] :=
  ⟨List.Forall₂.cons ⟨rfl, rfl, rfl, rfl⟩ List.Forall₂.nil,
   sync_decisions_ignore_mtime _ _ _ _ _
     (List.Forall₂.cons ⟨rfl, rfl, rfl, rfl⟩ List.Forall₂.nil)⟩

/-- C6: updating an existing stack whose update submission is rejected
with a message containing "No updates are to be performed" returns
`(operationStarted = false, nil error)`; any other update or create
submission failure is returned as an error, also with
`operationStarted = false`. -/
theorem create_or_update_no_update_classification
    (u c : Except GoStr Unit) (e : GoStr) :
    (isNoUpdateError e = true →
      CreateOrUpdateStack (Except.ok ()) (Except.error e) c = (false, none))
    ∧ (isNoUpdateError e = false →
      CreateOrUpdateStack (Except.ok ()) (Except.error e) c =
        (false, some ("failed to update stack: ".toList ++ e)))
    ∧ (CreateOrUpdateStack (Except.error .stackNotFound) u (Except.error e) =
        (false, some ("failed to create stack: ".toList ++ e))) := by
  refine ⟨?_, ?_, ?_⟩
  · intro h
    simp [CreateOrUpdateStack, StackExists, h]
  · intro h
    simp [CreateOrUpdateStack, StackExists, h]
  · rfl

/-- Witness for C6: a provider no-op rejection maps to `(false, nil)`,
an unrelated rejection maps to `(false, error)`. -/
theorem create_or_update_no_update_classification_witness :
    (isNoUpdateError "ValidationError: No updates are to be performed.".toList = true
      ∧ CreateOrUpdateStack (Except.ok ())
          (Except.error "ValidationError: No updates are to be performed.".toList)
          (Except.ok ()) = (false, none))
    ∧ (isNoUpdateError "AccessDenied".toList = false
      ∧ CreateOrUpdateStack (Except.ok ()) (Except.error "AccessDenied".toList)
          (Except.ok ()) =
          (false, some ("failed to update stack: ".toList ++ "AccessDenied".toList))) :=
  ⟨⟨by decide,
    (create_or_update_no_update_classification (Except.ok ()) (Except.ok ())
      "ValidationError: No updates are to be performed.".toList).1 (by decide)⟩,
   ⟨by decide,
    (create_or_update_no_update_classification (Except.ok ()) (Except.ok ())
      "AccessDenied".toList).2.1 (by decide)⟩⟩

/-- A non-terminal classification on a status keeps the invalidation
loop polling. -/
theorem invalidationStep_continue (s : GoStr) (h : s ≠ "Completed".toList) :
    invalidationStep (.invStatus s) = .continueLoop := by
  show (if s = "Completed".toList then StepOutcome.finished (Except.ok ())
    else StepOutcome.continueLoop) = StepOutcome.continueLoop
  rw [if_neg h]

/-- A non-terminal first observation reduces the wait to its tail. -/
theorem invalidationWait_cons_continue (obs : InvObservation)
    (rest : List InvObservation) (h : invalidationStep obs = .continueLoop) :
    invalidationWait (obs :: rest) = invalidationWait rest := by
  show (match invalidationStep obs with
    | StepOutcome.finished r => some r
    | StepOutcome.continueLoop => invalidationWait rest) = invalidationWait rest
  rw [h]

/-- C7: the invalidation wait loop recognizes exactly one terminal value:
status "Completed" returns success, every other status is non-terminal
(there is no failure terminal state), so a trace that never reports
"Completed" polls until the deadline or cancellation fires. -/
theorem invalidation_single_terminal_status :
    (∀ s : GoStr, invalidationStep (.invStatus s) = .finished (Except.ok ()) ↔
        s = "Completed".toList)
    ∧ (∀ s : GoStr, s ≠ "Completed".toList →
        invalidationStep (.invStatus s) = .continueLoop)
    ∧ (∀ trace : List GoStr, "Completed".toList ∉ trace →
        invalidationWait (trace.map .invStatus) = none)
    ∧ (∀ (trace : List GoStr) (e : GoStr), "Completed".toList ∉ trace →
        invalidationWait (trace.map .invStatus ++ [.ctxDone e]) =
          some (Except.error e)) := by
  refine ⟨?_, invalidationStep_continue, ?_, ?_⟩
  · intro s
    constructor
    · intro h
      by_contra hne
      rw [invalidationStep_continue s hne] at h
      exact StepOutcome.noConfusion h
    · intro h
      subst h
      rfl
  · intro trace h
    induction trace with
    | nil => rfl
    | cons s rest ih =>
      simp only [List.mem_cons, not_or] at h
      rw [List.map_cons,
        invalidationWait_cons_continue _ _ (invalidationStep_continue s (Ne.symm h.1))]
      exact ih h.2
  · intro trace e h
    induction trace with
    | nil => rfl
    | cons s rest ih =>
      simp only [List.mem_cons, not_or] at h
      rw [List.map_cons, List.cons_append,
        invalidationWait_cons_continue _ _ (invalidationStep_continue s (Ne.symm h.1))]
      exact ih h.2

/-- Witness for C7: an "InProgress" status is non-terminal, a trace of
only "InProgress" polls to exhaustion, and cancellation then surfaces
the context error. -/
theorem invalidation_single_terminal_status_witness :
    ("InProgress".toList ≠ "Completed".toList
      ∧ invalidationStep (.invStatus "InProgress".toList) = .continueLoop)
    ∧ ("Completed".toList ∉ ["InProgress".toList]
      ∧ invalidationWait (["InProgress".toList].map .invStatus) = none)
    ∧ invalidationWait (["InProgress".toList].map .invStatus ++
        [.ctxDone "context deadline exceeded".toList]) =
      some (Except.error "context deadline exceeded".toList) :=
  ⟨⟨by decide, invalidation_single_terminal_status.2.1 "InProgress".toList (by decide)⟩,
   ⟨by decide, invalidation_single_terminal_status.2.2.1 ["InProgress".toList] (by decide)⟩,
   invalidation_single_terminal_status.2.2.2 ["InProgress".toList]
     "context deadline exceeded".toList (by decide)⟩

/-- An output entry whose key is nil, whose value is nil, or whose key is
unrecognized leaves the struct unchanged. -/
theorem applyOutput_unrecognized (o : StackOutputs) (p : OutputPair)
    (h : ∀ k, p.key = some k → k ∉ recognizedOutputKeys) :
    applyOutput o p = o := by
  obtain ⟨pk, pv⟩ := p
  cases pk with
  | none => rfl
  | some k =>
    cases pv with
    | none => rfl
    | some v =>
      have h4 := h k rfl
      simp only [recognizedOutputKeys, List.mem_cons, List.not_mem_nil, or_false,
        not_or] at h4
      obtain ⟨h1, h2, h3, h4'⟩ := h4
      simp only [applyOutput]
      rw [if_neg h1, if_neg h2, if_neg h3, if_neg h4']

/-- Folding `applyOutput` over entries with no recognized key is the
identity. -/
theorem foldl_applyOutput_unrecognized (outs : List OutputPair)
    (h : ∀ p ∈ outs, ∀ k, p.key = some k → k ∉ recognizedOutputKeys) :
    ∀ o : StackOutputs, outs.foldl applyOutput o = o := by
  induction outs with
  | nil => intro o; rfl
  | cons p rest ih =>
    intro o
    rw [List.foldl_cons,
      applyOutput_unrecognized o p (h p (List.mem_cons_self p rest))]
    exact ih (fun q hq => h q (List.mem_cons_of_mem p hq)) o

/-- C9: `GetStackOutputs` maps exactly the four recognized output keys
into the `StackOutputs` structure, ignores every unrecognized key (and
every nil key or value), and a described stack with zero matching
records yields the zero-valued struct, not an error. -/
theorem get_stack_outputs_mapping :
    (∀ v o, applyOutput o ⟨some "BucketName".toList, some v⟩ =
        { o with bucketName := v })
    ∧ (∀ v o, applyOutput o ⟨some "DistributionId".toList, some v⟩ =
        { o with distributionID := v })
    ∧ (∀ v o, applyOutput o ⟨some "DistributionDomain".toList, some v⟩ =
        { o with distributionDomain := v })
    ∧ (∀ v o, applyOutput o ⟨some "SiteURL".toList, some v⟩ =
        { o with siteURL := v })
    ∧ (∀ o p, (∀ k, p.key = some k → k ∉ recognizedOutputKeys) →
        applyOutput o p = o)
    ∧ (∀ outs : List OutputPair,
        (∀ p ∈ outs, ∀ k, p.key = some k → k ∉ recognizedOutputKeys) →
        GetStackOutputs (Except.ok [outs]) = Except.ok emptyOutputs) := by
  refine ⟨fun v o => rfl, fun v o => rfl, fun v o => rfl, fun v o => rfl,
    applyOutput_unrecognized, ?_⟩
  intro outs h
  show Except.ok (outs.foldl applyOutput emptyOutputs) = Except.ok emptyOutputs
  rw [foldl_applyOutput_unrecognized outs h]

/-- Witness for C9: a stack whose only output is an unrecognized key
yields the zero-valued struct. -/
theorem get_stack_outputs_mapping_witness :
    (∀ p ∈ [(⟨some "CertificateArn".toList, some "x".toList⟩ : OutputPair)],
      ∀ k, p.key = some k → k ∉ recognizedOutputKeys)
    ∧ GetStackOutputs
        (Except.ok [[(⟨some "CertificateArn".toList, some "x".toList⟩ : OutputPair)]]) =
      Except.ok emptyOutputs := by
  have h : ∀ p ∈ [(⟨some "CertificateArn".toList, some "x".toList⟩ : OutputPair)],
      ∀ k, p.key = some k → k ∉ recognizedOutputKeys := by
    intro p hp k hk
    simp only [List.mem_cons, List.not_mem_nil, or_false] at hp
    subst hp
    simp only [Option.some.injEq] at hk
    subst hk
    decide
  exact ⟨h, get_stack_outputs_mapping.2.2.2.2.2
    [(⟨some "CertificateArn".toList, some "x".toList⟩ : OutputPair)] h⟩

/-- C2 counterexample: a run whose remote listing fails on the second
page.  The index is not treated as empty — the first page's object
survives — and the matching local file is skipped, not uploaded, so a
sync run with a failed listing call does not upload every local file. -/
theorem sync_listing_failure_counterexample :
    (Except.error "RequestTimeout".toList : ListPage) ∈ c2Pages
    ∧ listObjects [] c2Pages ≠ []
    ∧ SyncDirectory c2Pages (fun _ => true) "build".toList
        [⟨"build/a.txt".toList, "a.txt".toList, [], 0, true⟩] =
      ⟨[], Except.ok (0, 1)⟩ :=
  ⟨List.mem_cons_of_mem _ (List.mem_cons_self _ _), by decide, by rfl⟩

/-- Against an empty remote index every readable file is uploaded. -/
theorem syncFiles_empty_index (putOk : GoStr → Bool) (hput : ∀ k, putOk k = true) :
    ∀ (files : List LocalFile), (∀ f ∈ files, f.readOk = true) →
    ∀ up sk, syncFiles [] putOk files up sk =
      ⟨files.map LocalFile.relKey, Except.ok (up + files.length, sk)⟩ := by
  intro files
  induction files with
  | nil =>
    intro _ up sk
    simp [syncFiles]
  | cons f rest ih =>
    intro hread up sk
    have hr : f.readOk = true := hread f (List.mem_cons_self f rest)
    simp only [syncFiles, hr, if_true, fileAction, mapLookup, hput f.relKey,
      List.map_cons, List.length_cons]
    rw [ih (fun g hg => hread g (List.mem_cons_of_mem f hg)) (up + 1) sk]
    rw [show up + 1 + rest.length = up + (rest.length + 1) from by omega]

/-- C2 (amended): when a listing page request fails, `SyncDirectory`
proceeds with the objects accumulated from the pages already fetched
instead of returning the listing error; when the failure is on the first
page (e.g. the bucket does not exist yet), that index is empty and every
local file is uploaded. -/
theorem sync_listing_failure_first_page (e : GoStr) (rest : List ListPage)
    (putOk : GoStr → Bool) (buildDir : GoStr) (files : List LocalFile)
    (hput : ∀ k, putOk k = true) (hread : ∀ f ∈ files, f.readOk = true)
    (hne : files ≠ []) :
    listObjects [] (Except.error e :: rest) = []
    ∧ SyncDirectory (Except.error e :: rest) putOk buildDir files =
      ⟨files.map LocalFile.relKey, Except.ok (files.length, 0)⟩ := by
  refine ⟨rfl, ?_⟩
  show (if files.length = 0 then
      ⟨[], Except.error ("no files found in ".toList ++ buildDir)⟩
    else syncFiles [] putOk files 0 0) =
    (⟨files.map LocalFile.relKey, Except.ok (files.length, 0)⟩ : SyncRun)
  rw [if_neg fun h => hne (List.eq_nil_of_length_eq_zero h)]
  simpa using syncFiles_empty_index putOk hput files hread 0 0

/-- Witness for the amended C2: a listing that fails immediately
(nonexistent bucket) leads to the single local file being uploaded. -/
theorem sync_listing_failure_first_page_witness :
    ((∀ k : GoStr, (fun _ => true : GoStr → Bool) k = true)
      ∧ (∀ f ∈ [(⟨"build/b.txt".toList, "b.txt".toList, [97], 0, true⟩ : LocalFile)],
          LocalFile.readOk f = true)
      ∧ ([(⟨"build/b.txt".toList, "b.txt".toList, [97], 0, true⟩ : LocalFile)] :
          List LocalFile) ≠ [])
    ∧ SyncDirectory [Except.error "NoSuchBucket".toList] (fun _ => true)
        "build".toList
        [(⟨"build/b.txt".toList, "b.txt".toList, [97], 0, true⟩ : LocalFile)] =
      ⟨["b.txt".toList], Except.ok (1, 0)⟩ :=
  ⟨⟨fun _ => rfl, by decide, by decide⟩,
   (sync_listing_failure_first_page "NoSuchBucket".toList [] (fun _ => true)
     "build".toList
     [(⟨"build/b.txt".toList, "b.txt".toList, [97], 0, true⟩ : LocalFile)]
     (fun _ => rfl) (by decide) (by decide)).2⟩

/-- The source scan of the stack event history agrees with the
declarative description: the reason of the most recent (first listed)
create/update failure event carrying a reason, else "unknown reason". -/
theorem findFailureReason_spec (events : List StackEvent) :
    findFailureReason events =
      (events.findSome? fun ev =>
        if ev.resourceStatus = "CREATE_FAILED".toList ∨
            ev.resourceStatus = "UPDATE_FAILED".toList then
          ev.resourceStatusReason
        else none).getD "unknown reason".toList := by
  induction events with
  | nil => rfl
  | cons ev rest ih =>
    rw [List.findSome?_cons]
    simp only [findFailureReason]
    by_cases hst : ev.resourceStatus = "CREATE_FAILED".toList ∨
        ev.resourceStatus = "UPDATE_FAILED".toList
    · rw [if_pos hst, if_pos hst]
      cases hr : ev.resourceStatusReason with
      | some r => rfl
      | none => exact ih
    · rw [if_neg hst, if_neg hst]
      exact ih

/-- `WaitForStack`'s status switch, written as nested conditionals. -/
theorem waitForStackStep_status (s : GoStr)
    (evRes : Except GoStr (List StackEvent)) :
    waitForStackStep (.stackStatus s) evRes =
      if s ∈ successStatuses then .finished (Except.ok ())
      else if s ∈ failureStatuses then
        .finished (Except.error ("stack failed with status ".toList ++ s ++
          ": ".toList ++ getStackFailureReason evRes))
      else .continueLoop := rfl

/-- No status is both a success terminal and a failure terminal. -/
theorem success_failure_disjoint (s : GoStr) (h1 : s ∈ successStatuses)
    (h2 : s ∈ failureStatuses) : False := by
  simp only [successStatuses, List.mem_cons, List.not_mem_nil, or_false] at h1
  rcases h1 with h1 | h1 <;> subst h1 <;> revert h2 <;> decide

/-- C3: on an observed stack status, `WaitForStack` succeeds exactly on
the two success terminal statuses; on the seven failure terminal
statuses it returns an error whose reason is the reason text of the most
recent (the event listing is most-recent-first) resource-level
create/update failure event that has a reason, defaulting to
"unknown reason" when no such event exists; every other status keeps the
loop polling. -/
theorem wait_for_stack_status_classification (s : GoStr) (events : List StackEvent) :
    (waitForStackStep (.stackStatus s) (Except.ok events) = .finished (Except.ok ()) ↔
      s ∈ successStatuses)
    ∧ (s ∈ failureStatuses →
        waitForStackStep (.stackStatus s) (Except.ok events) =
          .finished (Except.error ("stack failed with status ".toList ++ s ++
            ": ".toList ++ findFailureReason events)))
    ∧ (findFailureReason events =
        (events.findSome? fun ev =>
          if ev.resourceStatus = "CREATE_FAILED".toList ∨
              ev.resourceStatus = "UPDATE_FAILED".toList then
            ev.resourceStatusReason
          else none).getD "unknown reason".toList)
    ∧ (s ∉ successStatuses → s ∉ failureStatuses →
        waitForStackStep (.stackStatus s) (Except.ok events) = .continueLoop) := by
  refine ⟨?_, ?_, findFailureReason_spec events, ?_⟩
  · rw [waitForStackStep_status]
    by_cases h1 : s ∈ successStatuses
    · rw [if_pos h1]
      simp [h1]
    · rw [if_neg h1]
      constructor
      · intro h
        by_cases h2 : s ∈ failureStatuses
        · rw [if_pos h2] at h
          simp at h
        · rw [if_neg h2] at h
          exact StepOutcome.noConfusion h
      · intro h
        exact absurd h h1
  · intro h2
    rw [waitForStackStep_status, if_neg (fun h1 => success_failure_disjoint s h1 h2),
      if_pos h2]
    rfl
  · intro h1 h2
    rw [waitForStackStep_status, if_neg h1, if_neg h2]

/-- Witness for C3: `UPDATE_COMPLETE` succeeds; `ROLLBACK_FAILED` with a
reason-bearing `CREATE_FAILED` event fails carrying that reason. -/
theorem wait_for_stack_status_classification_witness :
    ("UPDATE_COMPLETE".toList ∈ successStatuses
      ∧ waitForStackStep (.stackStatus "UPDATE_COMPLETE".toList) (Except.ok []) =
        .finished (Except.ok ()))
    ∧ ("ROLLBACK_FAILED".toList ∈ failureStatuses
      ∧ waitForStackStep (.stackStatus "ROLLBACK_FAILED".toList)
          (Except.ok [⟨"CREATE_FAILED".toList,
            some "Resource creation cancelled".toList⟩]) =
        .finished (Except.error ("stack failed with status ".toList ++
          "ROLLBACK_FAILED".toList ++ ": ".toList ++
          "Resource creation cancelled".toList))) :=
  ⟨⟨by decide,
    (wait_for_stack_status_classification "UPDATE_COMPLETE".toList []).1.mpr
      (by decide)⟩,
   ⟨by decide,
    (wait_for_stack_status_classification "ROLLBACK_FAILED".toList
      [⟨"CREATE_FAILED".toList, some "Resource creation cancelled".toList⟩]).2.1
      (by decide)⟩⟩

/-- C10: the hand-rolled `contains` helper is equivalent to the standard
substring predicate, including the empty substring, which occurs in every
string. -/
theorem contains_iff_substring_occurs (s substr : GoStr) :
    contains s substr = true ↔ OccursIn substr s := by
  constructor
  · intro h
    unfold contains at h
    simp only [Bool.and_eq_true, Bool.or_eq_true, decide_eq_true_eq, beq_iff_eq] at h
    obtain ⟨hlen, heq | ⟨hpos, himpl⟩⟩ := h
    · exact ⟨[], [], by simp [heq]⟩
    · unfold containsImpl at himpl
      rw [if_neg (Nat.not_lt.mpr hlen)] at himpl
      simp only [List.any_eq_true, List.mem_range, beq_iff_eq] at himpl
      obtain ⟨i, hi, hslice⟩ := himpl
      refine ⟨s.take i, (s.drop i).drop substr.length, ?_⟩
      have hdrop : s.drop i = substr ++ (s.drop i).drop substr.length := by
        conv_lhs => rw [← List.take_append_drop substr.length (s.drop i)]
        rw [hslice]
      calc s = s.take i ++ s.drop i := (List.take_append_drop i s).symm
        _ = s.take i ++ (substr ++ (s.drop i).drop substr.length) := by rw [← hdrop]
        _ = s.take i ++ substr ++ (s.drop i).drop substr.length :=
          (List.append_assoc _ _ _).symm
  · rintro ⟨pre, post, rfl⟩
    unfold contains
    simp only [Bool.and_eq_true, Bool.or_eq_true, decide_eq_true_eq, beq_iff_eq]
    refine ⟨by simp [List.length_append]; omega, ?_⟩
    by_cases heq : pre ++ substr ++ post = substr
    · exact Or.inl heq
    · refine Or.inr ⟨?_, ?_⟩
      · by_contra hz
        simp only [not_lt, Nat.le_zero] at hz
        have hnil := List.eq_nil_of_length_eq_zero hz
        simp only [List.append_eq_nil] at hnil
        obtain ⟨⟨h1, h2⟩, h3⟩ := hnil
        exact heq (by simp [h1, h2, h3])
      · unfold containsImpl
        rw [if_neg (by simp [List.length_append]; omega)]
        simp only [List.any_eq_true, List.mem_range, beq_iff_eq]
        refine ⟨pre.length, by simp [List.length_append]; omega, ?_⟩
        rw [List.append_assoc, List.drop_left]
        exact List.take_left substr post

end Ansel
